import Mathlib

/-!
Verification of the game-registration contract (`src/lib.rs`).

Shallow embedding of the ink! contract `my_contract`:

* `MyContract` — the storage struct holding `registrations : Mapping<AccountId, bool>`,
  modelled as a function `AccountId → Option Bool` (`Mapping.get` returns `Option`,
  absent keys give `none`).
* `AccountId` — opaque 32-byte account identifier; modelled as `Nat` (only decidable
  equality of identifiers is used by the contract).
* `Byte` — `u8`, modelled as `Fin 256`; `Vec<u8>` becomes `List Byte`.
* The Blake2x256 hash (`ink::env::hash_bytes::<Blake2x256>`) is an external library
  primitive, not code of this repository; it enters the embedding as an explicit
  function parameter `h : List Byte → List Byte` threaded into `register_with_signature`.
  No claim depends on any property of the hash beyond how the contract uses its output.
* `register_with_signature` models the `#[cfg(test)]` build of the method, the build
  under which the repository's unit tests run: after the already-registered check and
  hashing, the signature is compared with the message hash.
  `register_with_signature_release` models the `#[cfg(not(test))]` build, whose
  verification block unconditionally returns `Err(InvalidSignature)`.
* Rust `Result<(), Error>` becomes `Except Error Unit`; `&mut self` methods become
  state-passing functions returning `Except Error Unit × MyContract`.
-/

/-- The type `AccountId`: opaque account identifier (ink!'s 32-byte account id).
Only decidable equality is used, so it is modelled as `Nat`. -/
abbrev AccountId := Nat

/-- A `u8` byte, element type of Rust `Vec<u8>`. -/
abbrev Byte := Fin 256

/-- The `Error` enum of the contract. -/
inductive Error where
  | AlreadyRegistered : Error
  | InvalidSignature : Error
  deriving DecidableEq, Repr

/-- The `#[ink(storage)]` struct `MyContract { registrations: Mapping<AccountId, bool> }`.
`Mapping.get` yields `Option<bool>`, so the map is a function into `Option Bool`. -/
structure MyContract where
  registrations : AccountId → Option Bool

namespace MyContract

/-- The `new()` constructor: `Mapping::default()` is the empty mapping. -/
def new : MyContract := ⟨fun _ => none⟩

/-- The `default()` constructor, which delegates to `new()`. -/
def default : MyContract := new

/-- The query `is_registered(account)`:
`self.registrations.get(account).unwrap_or(false)`. -/
def is_registered (c : MyContract) (account : AccountId) : Bool :=
  (c.registrations account).getD false

/-- The message `register_with_signature(message, signature)` in the `#[cfg(test)]` build.
`caller` is the authenticated caller returned by `self.env().caller()`, and `h`
is the Blake2x256 hash primitive. Mirrors the source line by line:
already-registered check, hash of the message, signature/hash comparison,
then `self.registrations.insert(caller, &true)` and `Ok(())`. -/
def register_with_signature (h : List Byte → List Byte) (caller : AccountId)
    (c : MyContract) (message signature : List Byte) :
    Except Error Unit × MyContract :=
  if c.is_registered caller then
    (Except.error Error.AlreadyRegistered, c)
  else
    let output := h message
    if signature ≠ output then
      (Except.error Error.InvalidSignature, c)
    else
      (Except.ok (),
       ⟨fun a => if a = caller then some true else c.registrations a⟩)

/-- The message `register_with_signature(message, signature)` in the `#[cfg(not(test))]` build.
The hash of the message is still computed (the hashing statement precedes the
conditional-compilation blocks) but the verification block is
`return Err(Error::InvalidSignature)` unconditionally, so the insert at the end
of the method is unreachable. -/
def register_with_signature_release (h : List Byte → List Byte) (caller : AccountId)
    (c : MyContract) (message signature : List Byte) :
    Except Error Unit × MyContract :=
  if c.is_registered caller then
    (Except.error Error.AlreadyRegistered, c)
  else
    let output := h message
    let _sig := signature
    let _out := output
    (Except.error Error.InvalidSignature, c)

end MyContract

instance : DecidableEq (Except Error Unit) := fun a b =>
  match a, b with
  | Except.ok (), Except.ok () => isTrue rfl
  | Except.error e, Except.error f =>
    if h : e = f then isTrue (by rw [h]) else
      isFalse (fun hh => h (by injection hh))
  | Except.ok _, Except.error _ => isFalse (fun hh => Except.noConfusion hh)
  | Except.error _, Except.ok _ => isFalse (fun hh => Except.noConfusion hh)

/-- One inbound call to the contract: either a `register_with_signature`
message from an authenticated caller, or an `is_registered` query. -/
inductive Op where
  | reg : AccountId → List Byte → List Byte → Op
  | query : AccountId → Op
  deriving DecidableEq

/-- The observable outcome of one call: the `Result` of a registration
message, or the `bool` answer of an `is_registered` query. -/
inductive OpResult where
  | regRes : Except Error Unit → OpResult
  | queryRes : Bool → OpResult
  deriving DecidableEq

/-- Execute one inbound call against the contract state (test build).
`is_registered` takes `&self` and cannot change state. -/
def stepOp (h : List Byte → List Byte) (c : MyContract) : Op → OpResult × MyContract
  | Op.reg caller m s =>
    let r := c.register_with_signature h caller m s
    (OpResult.regRes r.1, r.2)
  | Op.query a => (OpResult.queryRes (c.is_registered a), c)

/-- Execute a sequence of inbound calls, returning the list of observable
results and the final contract state. -/
def runOps (h : List Byte → List Byte) (c : MyContract) : List Op → List OpResult × MyContract
  | [] => ([], c)
  | op :: rest =>
    let r := stepOp h c op
    let rest' := runOps h r.2 rest
    (r.1 :: rest'.1, rest'.2)

/-- Boolean test: this trace entry is a successful registration by `id`
(used to count successes, pairing each result with its op). -/
def successBy (id : AccountId) (p : OpResult × Op) : Bool :=
  match p.2 with
  | Op.reg a _ _ => a = id && p.1 = OpResult.regRes (Except.ok ())
  | Op.query _ => false

/-- Number of successful registrations by `id` along a trace of calls run
from state `c`. -/
def successCount (id : AccountId) (h : List Byte → List Byte) (c : MyContract)
    (ops : List Op) : Nat :=
  ((runOps h c ops).1.zip ops).countP (successBy id)

/-! Helper lemmas about a single `register_with_signature` call. -/

theorem is_registered_iff_some_true (c : MyContract) (a : AccountId) :
    c.is_registered a = true ↔ c.registrations a = some true := by
  unfold MyContract.is_registered
  cases ho : c.registrations a with
  | none => simp
  | some b => cases b <;> simp

theorem register_of_registered (h : List Byte → List Byte) (caller : AccountId)
    (c : MyContract) (m s : List Byte) (hreg : c.is_registered caller = true) :
    c.register_with_signature h caller m s = (Except.error Error.AlreadyRegistered, c) := by
  unfold MyContract.register_with_signature
  simp [hreg]

theorem register_ok_iff (h : List Byte → List Byte) (caller : AccountId)
    (c : MyContract) (m s : List Byte) :
    (c.register_with_signature h caller m s).1 = Except.ok () ↔
      (c.is_registered caller = false ∧ s = h m) := by
  unfold MyContract.register_with_signature
  by_cases hreg : c.is_registered caller
  · simp [hreg]
  · by_cases hsig : s = h m
    · simp [hreg, hsig]
    · simp [hreg, hsig]

theorem register_error_state (h : List Byte → List Byte) (caller : AccountId)
    (c : MyContract) (m s : List Byte) (e : Error)
    (herr : (c.register_with_signature h caller m s).1 = Except.error e) :
    (c.register_with_signature h caller m s).2 = c := by
  unfold MyContract.register_with_signature at herr ⊢
  by_cases hreg : c.is_registered caller
  · simp [hreg]
  · by_cases hsig : s = h m
    · simp [hreg, hsig] at herr
    · simp [hreg, hsig]

theorem register_ok_record (h : List Byte → List Byte) (caller : AccountId)
    (c : MyContract) (m s : List Byte)
    (hok : (c.register_with_signature h caller m s).1 = Except.ok ()) :
    (c.register_with_signature h caller m s).2.registrations caller = some true := by
  unfold MyContract.register_with_signature at hok ⊢
  by_cases hreg : c.is_registered caller
  · simp [hreg] at hok
  · by_cases hsig : s = h m
    · simp [hreg, hsig]
    · simp [hreg, hsig] at hok

theorem register_registrations_other (h : List Byte → List Byte) (caller : AccountId)
    (c : MyContract) (m s : List Byte) (a : AccountId) (hne : a ≠ caller) :
    (c.register_with_signature h caller m s).2.registrations a = c.registrations a := by
  unfold MyContract.register_with_signature
  by_cases hreg : c.is_registered caller
  · simp [hreg]
  · by_cases hsig : s = h m
    · simp [hreg, hsig, hne]
    · simp [hreg, hsig]

theorem register_preserves_some_true (h : List Byte → List Byte) (caller : AccountId)
    (c : MyContract) (m s : List Byte) (a : AccountId)
    (ha : c.registrations a = some true) :
    (c.register_with_signature h caller m s).2.registrations a = some true := by
  by_cases hac : a = caller
  · subst hac
    unfold MyContract.register_with_signature
    by_cases hreg : c.is_registered a
    · simp [hreg, ha]
    · by_cases hsig : s = h m
      · simp [hreg, hsig]
      · simp [hreg, hsig, ha]
  · rw [register_registrations_other h caller c m s a hac]
    exact ha

theorem register_preserves_registered (h : List Byte → List Byte) (caller : AccountId)
    (c : MyContract) (m s : List Byte) (a : AccountId)
    (ha : c.is_registered a = true) :
    (c.register_with_signature h caller m s).2.is_registered a = true := by
  rw [is_registered_iff_some_true] at ha ⊢
  exact register_preserves_some_true h caller c m s a ha

theorem register_ok_registered (h : List Byte → List Byte) (caller : AccountId)
    (c : MyContract) (m s : List Byte)
    (hok : (c.register_with_signature h caller m s).1 = Except.ok ()) :
    (c.register_with_signature h caller m s).2.is_registered caller = true := by
  rw [is_registered_iff_some_true]
  exact register_ok_record h caller c m s hok

theorem register_is_registered_other (h : List Byte → List Byte) (caller : AccountId)
    (c : MyContract) (m s : List Byte) (a : AccountId) (hne : a ≠ caller) :
    (c.register_with_signature h caller m s).2.is_registered a = c.is_registered a := by
  unfold MyContract.is_registered
  rw [register_registrations_other h caller c m s a hne]

theorem register_invalid_sig_iff (h : List Byte → List Byte) (caller : AccountId)
    (c : MyContract) (m s : List Byte) (hnr : c.is_registered caller = false) :
    (c.register_with_signature h caller m s).1 = Except.error Error.InvalidSignature ↔
      s ≠ h m := by
  unfold MyContract.register_with_signature
  by_cases hsig : s = h m
  · simp [hnr, hsig]
  · simp [hnr, hsig]

theorem register_release_eq (h : List Byte → List Byte) (caller : AccountId)
    (c : MyContract) (m s : List Byte) :
    c.register_with_signature_release h caller m s =
      (Except.error (if c.is_registered caller then Error.AlreadyRegistered
        else Error.InvalidSignature), c) := by
  unfold MyContract.register_with_signature_release
  by_cases hreg : c.is_registered caller <;> simp [hreg]

/-! Helper lemmas about traces of calls. -/

theorem stepOp_preserves_registered (h : List Byte → List Byte) (c : MyContract)
    (op : Op) (a : AccountId) (ha : c.is_registered a = true) :
    (stepOp h c op).2.is_registered a = true := by
  cases op with
  | reg caller m s => exact register_preserves_registered h caller c m s a ha
  | query b => exact ha

theorem runOps_length (h : List Byte → List Byte) (ops : List Op) :
    ∀ c : MyContract, (runOps h c ops).1.length = ops.length := by
  induction ops with
  | nil => intro c; rfl
  | cons op rest ih =>
    intro c
    simp [runOps, ih]

theorem runOps_preserves_registered (h : List Byte → List Byte) (a : AccountId)
    (ops : List Op) :
    ∀ c : MyContract, c.is_registered a = true →
      (runOps h c ops).2.is_registered a = true := by
  induction ops with
  | nil => intro c hc; exact hc
  | cons op rest ih =>
    intro c hc
    exact ih (stepOp h c op).2 (stepOp_preserves_registered h c op a hc)

theorem runOps_registered_already (h : List Byte → List Byte) (a : AccountId)
    (ops : List Op) :
    ∀ (c : MyContract), c.is_registered a = true →
    ∀ (j : Nat) (hj : j < ops.length) (hj' : j < (runOps h c ops).1.length)
      (m s : List Byte), ops.get ⟨j, hj⟩ = Op.reg a m s →
      (runOps h c ops).1.get ⟨j, hj'⟩ =
        OpResult.regRes (Except.error Error.AlreadyRegistered) := by
  induction ops with
  | nil => intro c _ j hj; exact absurd hj (Nat.not_lt_zero j)
  | cons op rest ih =>
    intro c hc j hj hj' m s hop
    cases j with
    | zero =>
      have hop0 : op = Op.reg a m s := hop
      subst hop0
      show (stepOp h c (Op.reg a m s)).1 = _
      simp [stepOp, register_of_registered h a c m s hc]
    | succ j2 =>
      have hj2 : j2 < rest.length := Nat.lt_of_succ_lt_succ hj
      have hj2' : j2 < (runOps h (stepOp h c op).2 rest).1.length := by
        rw [runOps_length]; exact hj2
      have hop2 : rest.get ⟨j2, hj2⟩ = Op.reg a m s := hop
      exact ih (stepOp h c op).2 (stepOp_preserves_registered h c op a hc)
        j2 hj2 hj2' m s hop2

theorem successBy_elim (id : AccountId) (r : OpResult) (op : Op)
    (hs : successBy id (r, op) = true) :
    ∃ m s, op = Op.reg id m s ∧ r = OpResult.regRes (Except.ok ()) := by
  cases op with
  | query b => simp [successBy] at hs
  | reg a m s =>
    simp [successBy] at hs
    obtain ⟨ha, hr⟩ := hs
    subst ha
    exact ⟨m, s, rfl, hr⟩

theorem successCount_cons (id : AccountId) (h : List Byte → List Byte)
    (c : MyContract) (op : Op) (rest : List Op) :
    successCount id h c (op :: rest) =
      successCount id h (stepOp h c op).2 rest +
        (if successBy id ((stepOp h c op).1, op) then 1 else 0) := by
  unfold successCount
  simp [runOps, List.countP_cons]

theorem successCount_eq_zero_of_registered (id : AccountId)
    (h : List Byte → List Byte) (ops : List Op) :
    ∀ c : MyContract, c.is_registered id = true → successCount id h c ops = 0 := by
  induction ops with
  | nil => intro c _; rfl
  | cons op rest ih =>
    intro c hc
    rw [successCount_cons,
      ih (stepOp h c op).2 (stepOp_preserves_registered h c op id hc)]
    have hhead : successBy id ((stepOp h c op).1, op) = false := by
      cases op with
      | query b => rfl
      | reg a m s =>
        by_cases hai : a = id
        · subst hai
          simp [successBy, stepOp, register_of_registered h a c m s hc]
        · simp [successBy, hai]
    rw [hhead]
    rfl

theorem successCount_le_one (id : AccountId) (h : List Byte → List Byte)
    (ops : List Op) :
    ∀ c : MyContract, successCount id h c ops ≤ 1 := by
  induction ops with
  | nil => intro c; exact Nat.zero_le 1
  | cons op rest ih =>
    intro c
    rw [successCount_cons]
    by_cases hb : successBy id ((stepOp h c op).1, op) = true
    · obtain ⟨m, s, hop, hr⟩ := successBy_elim id (stepOp h c op).1 op hb
      subst hop
      have hok : (c.register_with_signature h id m s).1 = Except.ok () := by
        simpa [stepOp] using hr
      have hafter : (stepOp h c (Op.reg id m s)).2.is_registered id = true := by
        simpa [stepOp] using register_ok_registered h id c m s hok
      rw [successCount_eq_zero_of_registered id h rest _ hafter, hb]
      simp
    · have hb' : successBy id ((stepOp h c op).1, op) = false :=
        Bool.eq_false_iff.mpr hb
      rw [hb']
      simpa using ih (stepOp h c op).2

theorem runOps_success_then_already (h : List Byte → List Byte) (id : AccountId)
    (ops : List Op) :
    ∀ (c : MyContract) (i j : Nat), i < j →
    ∀ (hi : i < ops.length) (hj : j < ops.length)
      (hi' : i < (runOps h c ops).1.length) (hj' : j < (runOps h c ops).1.length)
      (mi si mj sj : List Byte),
      ops.get ⟨i, hi⟩ = Op.reg id mi si →
      (runOps h c ops).1.get ⟨i, hi'⟩ = OpResult.regRes (Except.ok ()) →
      ops.get ⟨j, hj⟩ = Op.reg id mj sj →
      (runOps h c ops).1.get ⟨j, hj'⟩ =
        OpResult.regRes (Except.error Error.AlreadyRegistered) := by
  induction ops with
  | nil => intro c i j _ hi; exact absurd hi (Nat.not_lt_zero i)
  | cons op rest ih =>
    intro c i j hij hi hj hi' hj' mi si mj sj hopi hresi hopj
    cases i with
    | zero =>
      have hop0 : op = Op.reg id mi si := hopi
      subst hop0
      have hok : (c.register_with_signature h id mi si).1 = Except.ok () := by
        have hres0 : (stepOp h c (Op.reg id mi si)).1 =
            OpResult.regRes (Except.ok ()) := hresi
        simpa [stepOp] using hres0
      have hafter : (stepOp h c (Op.reg id mi si)).2.is_registered id = true := by
        simpa [stepOp] using register_ok_registered h id c mi si hok
      cases j with
      | zero => exact absurd hij (Nat.lt_irrefl 0)
      | succ j2 =>
        have hj2 : j2 < rest.length := Nat.lt_of_succ_lt_succ hj
        have hj2' : j2 <
            (runOps h (stepOp h c (Op.reg id mi si)).2 rest).1.length := by
          rw [runOps_length]; exact hj2
        have hopj2 : rest.get ⟨j2, hj2⟩ = Op.reg id mj sj := hopj
        exact runOps_registered_already h id rest (stepOp h c (Op.reg id mi si)).2
          hafter j2 hj2 hj2' mj sj hopj2
    | succ i2 =>
      cases j with
      | zero => exact absurd hij (Nat.not_lt_zero i2.succ)
      | succ j2 =>
        have hij2 : i2 < j2 := Nat.lt_of_succ_lt_succ hij
        have hi2 : i2 < rest.length := Nat.lt_of_succ_lt_succ hi
        have hj2 : j2 < rest.length := Nat.lt_of_succ_lt_succ hj
        have hi2' : i2 < (runOps h (stepOp h c op).2 rest).1.length := by
          rw [runOps_length]; exact hi2
        have hj2' : j2 < (runOps h (stepOp h c op).2 rest).1.length := by
          rw [runOps_length]; exact hj2
        have hopi2 : rest.get ⟨i2, hi2⟩ = Op.reg id mi si := hopi
        have hopj2 : rest.get ⟨j2, hj2⟩ = Op.reg id mj sj := hopj
        have hresi2 : (runOps h (stepOp h c op).2 rest).1.get ⟨i2, hi2'⟩ =
            OpResult.regRes (Except.ok ()) := hresi
        exact ih (stepOp h c op).2 i2 j2 hij2 hi2 hj2 hi2' hj2' mi si mj sj
          hopi2 hresi2 hopj2

theorem runOps_no_success_not_registered (h : List Byte → List Byte)
    (a : AccountId) (ops : List Op) :
    ∀ c : MyContract, c.is_registered a = false →
      ((runOps h c ops).1.zip ops).all (fun p => !(successBy a p)) = true →
      (runOps h c ops).2.is_registered a = false := by
  induction ops with
  | nil => intro c hc _; exact hc
  | cons op rest ih =>
    intro c hc hall
    have hall' : (!(successBy a ((stepOp h c op).1, op))) = true ∧
        ((runOps h (stepOp h c op).2 rest).1.zip rest).all
          (fun p => !(successBy a p)) = true := by
      simpa [runOps, List.all_cons] using hall
    obtain ⟨hhead, hrest⟩ := hall'
    have hhead' : successBy a ((stepOp h c op).1, op) = false := by
      simpa using hhead
    have hstep : (stepOp h c op).2.is_registered a = false := by
      cases op with
      | query b => exact hc
      | reg b m s =>
        by_cases hba : b = a
        · subst hba
          cases hres : (c.register_with_signature h b m s).1 with
          | ok u =>
            exfalso
            cases u
            have hsb : successBy b ((stepOp h c (Op.reg b m s)).1, Op.reg b m s) = true := by
              simp [successBy, stepOp, hres]
            rw [hsb] at hhead'
            exact Bool.noConfusion hhead'
          | error e =>
            show (c.register_with_signature h b m s).2.is_registered b = false
            rw [register_error_state h b c m s e hres]
            exact hc
        · show (c.register_with_signature h b m s).2.is_registered a = false
          rw [register_is_registered_other h b c m s a (fun hab => hba hab.symm)]
          exact hc
    exact ih (stepOp h c op).2 hstep hrest

/-! The claims. Each claim of the specification gets one theorem below,
followed by a witness instantiating it on concrete inputs where the theorem
has hypotheses. -/

/-- C1. At-most-once success: in any sequence of `register_with_signature`
and `is_registered` calls run from any state, at most one registration call
with a given identity as authenticated caller returns success, and every
registration call by that caller coming after a successful one returns
`AlreadyRegistered`. -/
theorem register_at_most_once (h : List Byte → List Byte) (c : MyContract)
    (ops : List Op) (id : AccountId) :
    successCount id h c ops ≤ 1 ∧
    (∀ (i j : Nat), i < j →
      ∀ (hi : i < ops.length) (hj : j < ops.length)
        (hi' : i < (runOps h c ops).1.length)
        (hj' : j < (runOps h c ops).1.length) (mi si mj sj : List Byte),
        ops.get ⟨i, hi⟩ = Op.reg id mi si →
        (runOps h c ops).1.get ⟨i, hi'⟩ = OpResult.regRes (Except.ok ()) →
        ops.get ⟨j, hj⟩ = Op.reg id mj sj →
        (runOps h c ops).1.get ⟨j, hj'⟩ =
          OpResult.regRes (Except.error Error.AlreadyRegistered)) :=
  ⟨successCount_le_one id h ops c,
   fun i j hij hi hj hi' hj' mi si mj sj hopi hresi hopj =>
     runOps_success_then_already h id ops c i j hij hi hj hi' hj' mi si mj sj
       hopi hresi hopj⟩

/-- Witness for C1 on the concrete trace of two identical registrations by
account 1 (with the hash instantiated to the identity function): the second
call returns `AlreadyRegistered`. -/
theorem register_at_most_once_witness :
    successCount 1 (fun m => m) MyContract.new
      [Op.reg 1 [0] [0], Op.reg 1 [0] [0]] ≤ 1 ∧
    (runOps (fun m => m) MyContract.new
      [Op.reg 1 [0] [0], Op.reg 1 [0] [0]]).1.get ⟨1, by decide⟩ =
      OpResult.regRes (Except.error Error.AlreadyRegistered) :=
  ⟨(register_at_most_once (fun m => m) MyContract.new
      [Op.reg 1 [0] [0], Op.reg 1 [0] [0]] 1).1,
   (register_at_most_once (fun m => m) MyContract.new
      [Op.reg 1 [0] [0], Op.reg 1 [0] [0]] 1).2 0 1 (by decide) (by decide)
      (by decide) (by decide) (by decide) [0] [0] [0] [0] (by decide)
      (by decide) (by decide)⟩

/-- C2. Idempotent terminal state: once an identity is registered it stays
registered across any further trace of calls, and a single
`register_with_signature` call by any caller with any arguments leaves the
identity's storage record at `some true` (never `false`, overwritten or
deleted). -/
theorem registered_is_terminal (h : List Byte → List Byte) (c : MyContract)
    (ops : List Op) (a : AccountId) (hreg : c.is_registered a = true) :
    (runOps h c ops).2.is_registered a = true ∧
    ∀ (caller : AccountId) (m s : List Byte),
      (c.register_with_signature h caller m s).2.registrations a = some true :=
  ⟨runOps_preserves_registered h a ops c hreg,
   fun caller m s => register_preserves_some_true h caller c m s a
     ((is_registered_iff_some_true c a).mp hreg)⟩

/-- Witness for C2: account 1, registered on the fresh contract, is still
registered after a trace containing a registration by another account, a
re-registration attempt by account 1 and a query. -/
theorem registered_is_terminal_witness :
    (runOps (fun m => m)
      ((MyContract.new.register_with_signature (fun m => m) 1 [] []).2)
      [Op.reg 2 [0] [1], Op.reg 1 [3] [3], Op.query 1]).2.is_registered 1 =
      true :=
  (registered_is_terminal (fun m => m)
    ((MyContract.new.register_with_signature (fun m => m) 1 [] []).2)
    [Op.reg 2 [0] [1], Op.reg 1 [3] [3], Op.query 1] 1 (by decide)).1

/-- C3. Already-registered checked first: for a registered caller,
`register_with_signature` returns `AlreadyRegistered` with the state
unchanged, for every message and signature, the result is independent of the
hash function and of the message/signature arguments (so no hashing or
verification work influences it), and the same holds in the release build. -/
theorem already_registered_checked_first (h h2 : List Byte → List Byte)
    (caller : AccountId) (c : MyContract) (m s m2 s2 : List Byte)
    (hreg : c.is_registered caller = true) :
    c.register_with_signature h caller m s =
      (Except.error Error.AlreadyRegistered, c) ∧
    c.register_with_signature h caller m s =
      c.register_with_signature h2 caller m2 s2 ∧
    c.register_with_signature_release h caller m s =
      (Except.error Error.AlreadyRegistered, c) := by
  refine ⟨register_of_registered h caller c m s hreg, ?_, ?_⟩
  · rw [register_of_registered h caller c m s hreg,
      register_of_registered h2 caller c m2 s2 hreg]
  · rw [register_release_eq h caller c m s, hreg]
    simp

/-- Witness for C3: on a state where account 1 is registered, two calls with
different hash functions, messages and signatures coincide. -/
theorem already_registered_checked_first_witness :
    ((MyContract.new.register_with_signature (fun m => m) 1 [] []).2).register_with_signature
        (fun m => m) 1 [5] [7] =
      ((MyContract.new.register_with_signature (fun m => m) 1 [] []).2).register_with_signature
        (fun _ => [9]) 1 [2] [] :=
  (already_registered_checked_first (fun m => m) (fun _ => [9]) 1
    ((MyContract.new.register_with_signature (fun m => m) 1 [] []).2)
    [5] [7] [2] [] (by decide)).2.1

/-- C4. Success postcondition: the test-build call returns `Ok(())` exactly
when the caller was unregistered and the signature equals the message hash,
and on success the caller's record is set to `true`, so `is_registered`
answers `true` afterwards. -/
theorem register_success_postcondition (h : List Byte → List Byte)
    (caller : AccountId) (c : MyContract) (m s : List Byte) :
    ((c.register_with_signature h caller m s).1 = Except.ok () ↔
      (c.is_registered caller = false ∧ s = h m)) ∧
    ((c.register_with_signature h caller m s).1 = Except.ok () →
      (c.register_with_signature h caller m s).2.is_registered caller = true ∧
      (c.register_with_signature h caller m s).2.registrations caller =
        some true) :=
  ⟨register_ok_iff h caller c m s,
   fun hok => ⟨register_ok_registered h caller c m s hok,
     register_ok_record h caller c m s hok⟩⟩

/-- Witness for C4: a successful concrete registration leaves account 1
registered. -/
theorem register_success_postcondition_witness :
    (MyContract.new.register_with_signature (fun m => m) 1 [0] [0]).2.is_registered 1 =
        true ∧
    (MyContract.new.register_with_signature (fun m => m) 1 [0] [0]).2.registrations 1 =
        some true :=
  (register_success_postcondition (fun m => m) 1 MyContract.new [0] [0]).2
    (by decide)

/-- C5. Invalid-signature rejection: for an unregistered caller the
test-build call returns `InvalidSignature` exactly when the signature
byte-vector differs from the hash of the message (the test build's notion of
verification). -/
theorem invalid_signature_rejection (h : List Byte → List Byte)
    (caller : AccountId) (c : MyContract) (m s : List Byte)
    (hnr : c.is_registered caller = false) :
    (c.register_with_signature h caller m s).1 =
        Except.error Error.InvalidSignature ↔ s ≠ h m :=
  register_invalid_sig_iff h caller c m s hnr

/-- Witness for C5: a concrete mismatched signature is rejected. -/
theorem invalid_signature_rejection_witness :
    (MyContract.new.register_with_signature (fun m => m) 1 [0] [1]).1 =
      Except.error Error.InvalidSignature :=
  (invalid_signature_rejection (fun m => m) 1 MyContract.new [0] [1]
    (by decide)).mpr (by decide)

/-- C6. Atomicity on failure: whenever the test-build call returns an error
the state is unchanged, and the release-build call never changes the state
at all. -/
theorem no_side_effect_on_failure (h : List Byte → List Byte)
    (caller : AccountId) (c : MyContract) (m s : List Byte) (e : Error)
    (herr : (c.register_with_signature h caller m s).1 = Except.error e) :
    (c.register_with_signature h caller m s).2 = c ∧
    (c.register_with_signature_release h caller m s).2 = c :=
  ⟨register_error_state h caller c m s e herr, by
    rw [register_release_eq h caller c m s]⟩

/-- Witness for C6: a concrete rejected registration leaves the fresh
contract state intact. -/
theorem no_side_effect_on_failure_witness :
    (MyContract.new.register_with_signature (fun m => m) 1 [0] [1]).2 =
      MyContract.new :=
  (no_side_effect_on_failure (fun m => m) 1 MyContract.new [0] [1]
    Error.InvalidSignature (by decide)).1

/-- C7. Unknown identity defaults to false: `is_registered` answers `false`
on the fresh contract (both constructors) for every identity, it answers
`false` after any trace from the fresh contract containing no successful
registration by that identity, and an `is_registered` call never modifies
the state. -/
theorem unknown_identity_defaults_false (h : List Byte → List Byte)
    (ops : List Op) (a b : AccountId) (c : MyContract)
    (hall : ((runOps h MyContract.new ops).1.zip ops).all
      (fun p => !(successBy a p)) = true) :
    MyContract.new.is_registered a = false ∧
    MyContract.default.is_registered a = false ∧
    (runOps h MyContract.new ops).2.is_registered a = false ∧
    (stepOp h c (Op.query b)).2 = c :=
  ⟨rfl, rfl,
   runOps_no_success_not_registered h a ops MyContract.new rfl hall, rfl⟩

/-- Witness for C7: after a trace in which account 2's only registration
attempt fails on a bad signature, account 2 is still unregistered. -/
theorem unknown_identity_defaults_false_witness :
    (runOps (fun m => m) MyContract.new
      [Op.reg 2 [0] [1], Op.query 2]).2.is_registered 2 = false :=
  (unknown_identity_defaults_false (fun m => m) [Op.reg 2 [0] [1], Op.query 2]
    2 3 MyContract.new (by decide)).2.2.1

/-- C8. Production build always rejects: the release-build call returns
`AlreadyRegistered` for a registered caller and `InvalidSignature`
otherwise, never `Ok(())`, and never changes the state. -/
theorem release_never_registers (h : List Byte → List Byte)
    (caller : AccountId) (c : MyContract) (m s : List Byte) :
    (c.register_with_signature_release h caller m s).1 =
      Except.error (if c.is_registered caller then Error.AlreadyRegistered
        else Error.InvalidSignature) ∧
    (c.register_with_signature_release h caller m s).1 ≠ Except.ok () ∧
    (c.register_with_signature_release h caller m s).2 = c := by
  rw [register_release_eq h caller c m s]
  exact ⟨rfl, fun hk => Except.noConfusion hk, rfl⟩

/-- Witness for C8: the release build rejects account 1's valid-looking
registration on the fresh contract. -/
theorem release_never_registers_witness :
    (MyContract.new.register_with_signature_release (fun m => m) 1 [0] [0]).2 =
      MyContract.new :=
  (release_never_registers (fun m => m) 1 MyContract.new [0] [0]).2.2

/-- C9. In the test build the acceptance condition does not involve the
caller's key at all: any caller, including account 2 which never produced a
signature, successfully registers on the fresh contract by presenting the
bare hash of the message, and for unregistered callers the call result is
completely independent of which account is the caller. This refutes the
claimed binding of the signature to the claimed identity's key. -/
theorem register_ignores_caller_key (h : List Byte → List Byte)
    (m : List Byte) :
    (MyContract.new.register_with_signature h 2 m (h m)).1 = Except.ok () ∧
    ∀ (c : MyContract) (a b : AccountId) (s : List Byte),
      c.is_registered a = false → c.is_registered b = false →
      (c.register_with_signature h a m s).1 =
        (c.register_with_signature h b m s).1 := by
  constructor
  · exact (register_ok_iff h 2 MyContract.new m (h m)).mpr ⟨rfl, rfl⟩
  · intro c a b s ha hb
    by_cases hsig : s = h m
    · rw [(register_ok_iff h a c m s).mpr ⟨ha, hsig⟩,
        (register_ok_iff h b c m s).mpr ⟨hb, hsig⟩]
    · rw [(register_invalid_sig_iff h a c m s ha).mpr hsig,
        (register_invalid_sig_iff h b c m s hb).mpr hsig]

/-- Witness for C9: account 2 registers with the bare hash of the two-byte
message `hi`, and for a mismatched pair the result is the same whether the
caller is account 3 or account 4. -/
theorem register_ignores_caller_key_witness :
    (MyContract.new.register_with_signature (fun x => x) 2 [104, 105]
        [104, 105]).1 = Except.ok () ∧
    (MyContract.new.register_with_signature (fun x => x) 3 [104] [9]).1 =
      (MyContract.new.register_with_signature (fun x => x) 4 [104] [9]).1 :=
  ⟨(register_ignores_caller_key (fun x => x) [104, 105]).1,
   (register_ignores_caller_key (fun x => x) [104]).2 MyContract.new 3 4 [9]
     (by decide) (by decide)⟩

/-- C10. Frame property: a `register_with_signature` call leaves the record
of every account other than the caller untouched (test and release build),
and its result depends on the state only through the caller's own record, so
the registered identity comes from the authenticated caller, never from the
message or signature payload. -/
theorem register_frame_property (h : List Byte → List Byte)
    (caller : AccountId) (c c2 : MyContract) (m s : List Byte) (a : AccountId)
    (hne : a ≠ caller)
    (hsame : c2.registrations caller = c.registrations caller) :
    (c.register_with_signature h caller m s).2.is_registered a =
      c.is_registered a ∧
    (c.register_with_signature h caller m s).2.registrations a =
      c.registrations a ∧
    (c.register_with_signature_release h caller m s).2.registrations a =
      c.registrations a ∧
    (c2.register_with_signature h caller m s).1 =
      (c.register_with_signature h caller m s).1 := by
  refine ⟨register_is_registered_other h caller c m s a hne,
    register_registrations_other h caller c m s a hne, ?_, ?_⟩
  · rw [register_release_eq h caller c m s]
  · have hreg : c2.is_registered caller = c.is_registered caller := by
      unfold MyContract.is_registered
      rw [hsame]
    unfold MyContract.register_with_signature
    rw [hreg]
    by_cases hr : c.is_registered caller
    · simp [hr]
    · by_cases hsig : s = h m
      · simp [hr, hsig]
      · simp [hr, hsig]

/-- Witness for C10: registering account 1 on the fresh contract does not
change account 2's record, and the call's result is the same from a state
that differs only outside account 1's record. -/
theorem register_frame_property_witness :
    (MyContract.new.register_with_signature (fun m => m) 1 [0] [0]).2.is_registered 2 =
      MyContract.new.is_registered 2 ∧
    (((MyContract.new.register_with_signature (fun m => m) 3 [] []).2).register_with_signature
        (fun m => m) 1 [0] [0]).1 =
      (MyContract.new.register_with_signature (fun m => m) 1 [0] [0]).1 :=
  ⟨(register_frame_property (fun m => m) 1 MyContract.new MyContract.new
      [0] [0] 2 (by decide) rfl).1,
   (register_frame_property (fun m => m) 1 MyContract.new
      ((MyContract.new.register_with_signature (fun m => m) 3 [] []).2)
      [0] [0] 2 (by decide) (by decide)).2.2.2⟩
